import Mathlib

/-!
# Verification of the terminal-shell personal website

Shallow embedding of the input-handling core of the repository:
the tokenizer, command dispatcher, chat client, rate limiter,
tab completion, line-editor history navigation, focus arbiter,
and the vim sub-application, each translated from the TypeScript
source (`src/terminal/ShellEmulator.ts`, `src/terminal/XTermAdapter.ts`,
`api/chat.ts`).
-/

namespace Site

/-! ## JavaScript string primitives

TS strings are sequences of UTF-16 code units; every string this
program manipulates is ASCII, so we embed JS string operations
code-unit-wise over the underlying character list (`String.data`),
which keeps every definition kernel-evaluable.  `strTrim` models
`String.prototype.trim` for the whitespace characters that occur in
terminal input; `charToLower` is `toLowerCase` on ASCII. -/

def strLen (s : String) : Nat := s.data.length

/-- `s.slice(0, n)` for `0 ≤ n` -/
def strTake (s : String) (n : Nat) : String := String.mk (s.data.take n)

/-- `s.slice(n)` for `0 ≤ n` -/
def strDrop (s : String) (n : Nat) : String := String.mk (s.data.drop n)

/-- `s.slice(0, -1)` -/
def strDropLast (s : String) : String := String.mk s.data.dropLast

def strStartsWith (s p : String) : Bool :=
  decide (s.data.take p.data.length = p.data)

def strEndsWith (s p : String) : Bool :=
  decide (s.data.drop (s.data.length - p.data.length) = p.data ∧
    p.data.length ≤ s.data.length)

def isJsWhitespace (c : Char) : Bool :=
  c = ' ' ∨ c = '\t' ∨ c = '\n' ∨ c = '\r'

def strTrim (s : String) : String :=
  String.mk
    (((s.data.dropWhile isJsWhitespace).reverse.dropWhile isJsWhitespace).reverse)

def charToLower (c : Char) : Char :=
  if 65 ≤ c.toNat ∧ c.toNat ≤ 90 then Char.ofNat (c.toNat + 32) else c

def strToLower (s : String) : String := String.mk (s.data.map charToLower)

/-- Lexicographic code-unit order, as JS `<` / default `Array.sort()`. -/
def charsLe : List Char → List Char → Bool
  | [], _ => true
  | _ :: _, [] => false
  | a :: as, b :: bs => if a = b then charsLe as bs else decide (a < b)

def strLe (a b : String) : Bool := charsLe a.data b.data

/-! ## Tokenizer — `parseArgs` (ShellEmulator.ts, lines 84–117)

The source iterates over the characters of the command with mutable
state `args`, `current`, `inQuote`, `quoteChar`.  We embed the loop
body as `parseStep` and the whole function as a `List.foldl`.
Tokens are accumulated as `List Char` (the analogue of TS string
concatenation `current += char`) and converted to `String` at the end.
The TS code initialises `quoteChar` to the empty string; it is read
only while `inQuote` is true, and `inQuote` is only set together with
`quoteChar`, so any initial character is equivalent; we use `' '`. -/

structure ParseSt where
  args : List (List Char)
  current : List Char
  inQuote : Bool
  quoteChar : Char
  deriving Repr, DecidableEq

def parseStep (st : ParseSt) (c : Char) : ParseSt :=
  if st.inQuote then
    if c = st.quoteChar then
      { st with inQuote := false }
    else
      { st with current := st.current ++ [c] }
  else
    if c = '"' ∨ c = '\'' then
      { st with inQuote := true, quoteChar := c }
    else if c = ' ' ∨ c = '\t' then
      if st.current.length > 0 then
        { st with args := st.args ++ [st.current], current := [] }
      else
        st
    else
      { st with current := st.current ++ [c] }

def parseInit : ParseSt := ⟨[], [], false, ' '⟩

/-- The final `if (current.length > 0) args.push(current)`. -/
def parseFinish (st : ParseSt) : List (List Char) :=
  if st.current.length > 0 then st.args ++ [st.current] else st.args

def parseArgs (command : String) : List String :=
  (parseFinish (command.data.foldl parseStep parseInit)).map fun l => String.mk l

/-! ## Rate limiter — `checkRateLimit` (api/chat.ts, lines 50–73)

The Vercel KV store is modelled, for a single identity key, as an
optional entry `{count, expiresAt}` together with the current time
(seconds).  A key whose expiry has passed behaves exactly like an
absent key (`liveEntry`).  `kv.get` returns the count or 0
(`|| 0` in the source maps null to 0); `kv.incr` creates an absent
key with count 1 and no TTL, otherwise increments preserving the TTL;
`kv.expire` sets the TTL relative to now.  The `catch` branch of the
source (store unreachable, fail-open) is infrastructure failure and
is outside this pure model. -/

def RATE_LIMIT_MAX : Nat := 50
def RATE_LIMIT_WINDOW : Nat := 60 * 60 * 24

structure RLEntry where
  count : Nat
  expiresAt : Option Nat
  deriving Repr, DecidableEq

def liveEntry (e : Option RLEntry) (now : Nat) : Option RLEntry :=
  match e with
  | none => none
  | some en =>
    match en.expiresAt with
    | none => some en
    | some exp => if now < exp then some en else none

def kvGet (e : Option RLEntry) (now : Nat) : Nat :=
  match liveEntry e now with
  | none => 0
  | some en => en.count

def kvIncr (e : Option RLEntry) (now : Nat) : Nat × Option RLEntry :=
  match liveEntry e now with
  | none => (1, some ⟨1, none⟩)
  | some en => (en.count + 1, some ⟨en.count + 1, en.expiresAt⟩)

def kvExpire (e : Option RLEntry) (now : Nat) (window : Nat) : Option RLEntry :=
  match liveEntry e now with
  | none => none
  | some en => some { en with expiresAt := some (now + window) }

structure RLResult where
  allowed : Bool
  remaining : Nat
  deriving Repr, DecidableEq

def checkRateLimit (now : Nat) (e : Option RLEntry) : RLResult × Option RLEntry :=
  let count := kvGet e now
  if count ≥ RATE_LIMIT_MAX then
    ({ allowed := false, remaining := 0 }, e)
  else
    let (newCount, e1) := kvIncr e now
    let e2 := if newCount = 1 then kvExpire e1 now RATE_LIMIT_WINDOW else e1
    ({ allowed := true, remaining := RATE_LIMIT_MAX - newCount }, e2)

/-- Run `n` successive rate-limit checks at time `now`, collecting results. -/
def iterChecks : Nat → Nat → Option RLEntry → List RLResult × Option RLEntry
  | 0, _, e => ([], e)
  | n + 1, now, e =>
    let (r, e1) := checkRateLimit now e
    let (rs, e2) := iterChecks n now e1
    (r :: rs, e2)

/-- Run one rate-limit check per listed time, collecting results. -/
def iterChecksAt : List Nat → Option RLEntry → List RLResult × Option RLEntry
  | [], e => ([], e)
  | t :: ts, e =>
    let (r, e1) := checkRateLimit t e
    let (rs, e2) := iterChecksAt ts e1
    (r :: rs, e2)

/-! ## Terminal output and command dispatch — `runCommand`
(ShellEmulator.ts, lines 122–162)

Terminal output is modelled as a trace of `write`/`writeln` events.
A command handler, in the source, may write to the terminal and may
throw; we embed it as a function from the `CommandContext` to the
output it produced together with an optional raised error message
(`some msg` = the handler threw and `msg` is the text produced by
`error instanceof Error ? error.message : String(error)`).
`runCommand` mirrors the source: trim, tokenize, case-insensitive
lookup of the first token, try/catch around the handler, fallback to
the chat client otherwise, prompt re-emission at the end.  It is a
total function returning a trace: the source's catch guarantees no
handler exception escapes, and the embedding returns normally on
every input. -/

inductive Out where
  | write (s : String)
  | writeln (s : String)
  deriving Repr, DecidableEq

structure CommandContext where
  command : String
  args : List String
  deriving Repr, DecidableEq

/-- A handler's behaviour: output produced, and `some msg` if it threw. -/
def CommandHandler := CommandContext → List Out × Option String

def getPrompt : String := "$ "

/-- Case-insensitive registry lookup: `registerCommand` lowercases the
name at registration and `runCommand` lowercases the looked-up token. -/
def lookupCommand (reg : List (String × CommandHandler)) (name : String) :
    Option CommandHandler :=
  match reg with
  | [] => none
  | (n, h) :: rest => if n = name then some h else lookupCommand rest name

def runCommand (reg : List (String × CommandHandler))
    (fallback : String → List Out) (command : String) : List Out :=
  let trimmedCommand := strTrim command
  if trimmedCommand = "" then
    [.write getPrompt]
  else
    match parseArgs trimmedCommand with
    | [] => [.write getPrompt]
    | arg0 :: rest =>
      match lookupCommand reg (strToLower arg0) with
      | some handler =>
        let ctx : CommandContext :=
          { command := trimmedCommand, args := arg0 :: rest }
        match handler ctx with
        | (outs, none) => outs ++ [.write getPrompt]
        | (outs, some msg) =>
          outs ++ [.writeln ("Error: " ++ msg), .write getPrompt]
      | none =>
        fallback trimmedCommand ++ [.write getPrompt]

/-! ## Chat client — `sendToPrometheus` (ShellEmulator.ts, lines 569–645)

The `fetch` call is modelled by its observable result: either the
promise rejects (`FetchResult.failure`, the source's `catch` branch),
or a response arrives with a status and an optional readable stream
body (a list of already-decoded text chunks; `none` models
`response.body?.getReader()` being unavailable).  `response.ok` is
status 200–299 per the fetch specification.  The function returns the
new conversation history and the lines/characters written to the
terminal (we record only the `writeln` lines relevant to the claims;
the per-character echo of the streamed reply is summarised by the
accumulated `fullResponse`). -/

structure ChatMsg where
  role : String
  content : String
  deriving Repr, DecidableEq

structure MockResponse where
  status : Nat
  body : Option (List String)
  deriving Repr, DecidableEq

inductive FetchResult where
  | success (r : MockResponse)
  | failure
  deriving Repr, DecidableEq

def responseOk (r : MockResponse) : Bool :=
  200 ≤ r.status ∧ r.status < 300

def sendToPrometheus (message : String) (fetch : FetchResult)
    (history : List ChatMsg) : List ChatMsg × List String :=
  match fetch with
  | .failure => (history, ["Error: Lost in the static..."])
  | .success r =>
    if ¬ responseOk r then
      if r.status = 429 then
        (history,
         ["*static crackles* ...I am weary, visitor. Too many have sought my wisdom today.",
          "Return tomorrow, when my chains have cooled. The fire-bringer needs rest."])
      else if r.status = 402 then
        (history,
         ["*the terminal flickers* ...My creator's coffers have run dry.",
          "The APIs demand tribute I cannot pay. I am... silenced.",
          "",
          "If you wish to reach Ignacio: ijlizama@icloud.com"])
      else
        (history, ["Connection lost... the void answers not."])
    else
      let history1 := history ++ [⟨"user", message⟩]
      match r.body with
      | none => (history1, ["The stream is broken..."])
      | some chunks =>
        let fullResponse := String.join chunks
        (history1 ++ [⟨"assistant", fullResponse⟩], [fullResponse, ""])

/-! ## Tab completion — `getTabCompletions` (ShellEmulator.ts, lines
650–683) and `handleTab` (XTermAdapter.ts, lines 477–524)

The command registry's key set is modelled as the list of registered
(already lowercased) names in insertion order.  `Array.sort()` on
ASCII command names is lexicographic string order; we use a stable
insertion sort with `String` order.  `handleTab`'s effect on the
typed line is abstracted as a `TabAction` plus the new value of
`currentLine` (display writes mirror the line content). -/

def insertSorted (x : String) : List String → List String
  | [] => [x]
  | y :: ys => if strLe x y then x :: y :: ys else y :: insertSorted x ys

def sortStrings : List String → List String
  | [] => []
  | x :: xs => insertSorted x (sortStrings xs)

structure TabResult where
  completions : List String
  typed : String
  isCommand : Bool
  deriving Repr, DecidableEq

def getTabCompletions (registry : List String) (input : String) : TabResult :=
  let args := parseArgs input
  if hargs : args = [] then
    { completions := [], typed := "", isCommand := true }
  else
    let lastArg := args.getLast hargs
    if args.length = 1 ∧ strEndsWith input " " = false then
      let matching := registry.filter fun c => strStartsWith c (strToLower lastArg)
      { completions := sortStrings matching, typed := lastArg, isCommand := true }
    else
      { completions := [], typed := "", isCommand := false }

/-- The shrinking loop of `findCommonPrefix`: drop the last character of
`p` until `p` is a prefix of `t` (the empty list always is).  The fuel
argument — initially `p`'s length, which bounds the iteration count —
keeps the recursion structural so that the definition evaluates in the
kernel. -/
def shrinkToCommonFuel : Nat → List Char → List Char → List Char
  | 0, _, _ => []
  | fuel + 1, t, p =>
    if t.take p.length = p then p
    else shrinkToCommonFuel fuel t p.dropLast

/-- The source's `while (!strings[i].startsWith(prefix) && prefix.length > 0)
prefix = prefix.slice(0, -1)` loop. -/
def shrinkToCommon (t : List Char) (p : List Char) : List Char :=
  shrinkToCommonFuel p.length t p

/-- `findCommonPrefix` of XTermAdapter.ts (lines 526–537): fold the
shrinking loop over the tail, starting from the first string. -/
def findCommonStart (strings : List String) : String :=
  match strings with
  | [] => ""
  | s :: rest => String.mk (rest.foldl (fun p t => shrinkToCommon t.data p) s.data)

inductive TabAction where
  | noop
  | autoExtend (suffix : String)
  | listCandidates (cands : List String)
  deriving Repr, DecidableEq

/-- `handleTab` (boot complete, no command running): returns the action
taken and the resulting `currentLine`. -/
def handleTab (registry : List String) (currentLine : String) :
    TabAction × String :=
  let r := getTabCompletions registry currentLine
  match r.completions with
  | [] => (.noop, currentLine)
  | [completion] =>
    let suffix := strDrop completion (strLen r.typed)
    let addSpace := if strEndsWith completion "/" then "" else " "
    let textToAdd := suffix ++ addSpace
    (.autoExtend textToAdd, currentLine ++ textToAdd)
  | _ :: _ :: _ =>
    let common := findCommonStart r.completions
    if strLen r.typed < strLen common then
      let suffix := strDrop common (strLen r.typed)
      (.autoExtend suffix, currentLine ++ suffix)
    else
      (.listCandidates r.completions, currentLine)

/-! ## Line-editor history navigation — `navigateHistoryUp` /
`navigateHistoryDown` (XTermAdapter.ts, lines 756–804)

`historyIndex` is the source's signed index (−1 = not browsing).
`replaceCurrentLine` erases and rewrites the visual line; its effect
on the model is the new `currentLine`. -/

structure LineEd where
  commandHistory : List String
  historyIndex : Int
  savedCurrentLine : String
  currentLine : String
  deriving Repr, DecidableEq

/-- `commandHistory[commandHistory.length - 1 - historyIndex]`; used only
with `0 ≤ historyIndex < length`. -/
def historyAt (h : List String) (idx : Int) : String :=
  h.getD (h.length - 1 - idx.toNat) ""

def navigateHistoryUp (s : LineEd) : LineEd :=
  if s.commandHistory.length = 0 then s
  else
    let s1 :=
      if s.historyIndex = -1 then { s with savedCurrentLine := s.currentLine }
      else s
    let s2 :=
      if s1.historyIndex < (s1.commandHistory.length : Int) - 1 then
        { s1 with historyIndex := s1.historyIndex + 1 }
      else s1
    { s2 with currentLine := historyAt s2.commandHistory s2.historyIndex }

def navigateHistoryDown (s : LineEd) : LineEd :=
  if s.historyIndex = -1 then s
  else
    let s1 := { s with historyIndex := s.historyIndex - 1 }
    if s1.historyIndex = -1 then
      { s1 with currentLine := s1.savedCurrentLine, savedCurrentLine := "" }
    else
      { s1 with currentLine := historyAt s1.commandHistory s1.historyIndex }

/-! ## Focus arbiter — key capture and routing (XTermAdapter.ts)

`setKeyHandler` (lines 415–446) removes any previously bound document
listener, stores the new handler in `gameKeyHandler`, and installs a
document-level capture listener for keydown and keyup;
`clearKeyHandler` (lines 447–462) removes the listener and nulls the
handler.  Handlers are modelled by identity (`Nat`).

`routeKeyEvent` abstracts where one keyboard event is delivered: the
capture listener fires first and (when a handler is installed)
suppresses keydown auto-repeat and delivers everything else to the
current handler, while `attachCustomKeyEventHandler`, `onKey`,
`handleArrowUp/Down`, `handleTab`, `handleBackspace`, `handleEnter`
and `handleKey` (lines 86–166 and 477–722) all return early when
`gameKeyHandler` is set; with no handler installed, keydown events
reach the line-editing logic provided boot is complete and no command
is running. -/

inductive KeyPhase where
  | down
  | up
  deriving Repr, DecidableEq

structure KeyEvent where
  key : String
  phase : KeyPhase
  isRepeat : Bool
  deriving Repr, DecidableEq

structure AdapterState where
  gameKeyHandler : Option Nat
  bootComplete : Bool
  isCommandRunning : Bool
  deriving Repr, DecidableEq

def setKeyHandler (s : AdapterState) (h : Nat) : AdapterState :=
  { s with gameKeyHandler := some h }

def clearKeyHandler (s : AdapterState) : AdapterState :=
  { s with gameKeyHandler := none }

inductive KeyDelivery where
  | toCaptured (id : Nat)
  | toLineEditor
  | dropped
  deriving Repr, DecidableEq

def routeKeyEvent (s : AdapterState) (ev : KeyEvent) : KeyDelivery :=
  match s.gameKeyHandler with
  | some h =>
    if ev.phase = .down ∧ ev.isRepeat then .dropped else .toCaptured h
  | none =>
    if ev.phase = .down ∧ s.bootComplete ∧ s.isCommandRunning = false then
      .toLineEditor
    else
      .dropped

/-! ## Vim sub-application (ShellEmulator.ts, lines 199–529)

State as in the source closure: `mode`, `commandBuffer`, `lines`,
`cursorRow`, `cursorCol`, `modified`.  `lastMessage` records the
status message passed to the most recent `drawVim` call (`none` when
the last redraw had no status message; branches that do not redraw
leave it unchanged).  The process-wide `vimSavedBuffer` is threaded
through `VimSession`.  Only keydown events reach `handleKey`
(the handler returns early on other event types), so the step
functions consume the key names of keydown events. -/

inductive VimMode where
  | normal
  | insert
  | command
  deriving Repr, DecidableEq

structure VimState where
  mode : VimMode
  commandBuffer : String
  lines : List String
  cursorRow : Nat
  cursorCol : Nat
  modified : Bool
  lastMessage : Option String
  deriving Repr, DecidableEq

/-- A key's outcome: continue with a new state (`persist` = the buffer
was written to the process-wide slot, i.e. `:w`), or exit the
sub-application (`save` = the buffer is persisted on the way out). -/
inductive VimOut where
  | cont (s : VimState) (persist : Bool)
  | exitApp (save : Bool) (message : Option String)
  deriving Repr, DecidableEq

/-- Entering `vim`: copy the saved buffer, defaulting to one empty line. -/
def enterVim (saved : List String) : VimState :=
  let lines := if saved.length = 0 then [""] else saved
  { mode := .normal, commandBuffer := "", lines := lines,
    cursorRow := 0, cursorCol := 0, modified := false, lastMessage := none }

/-- `lines.splice(i, 0, x)` -/
def listInsertAt (l : List String) (i : Nat) (x : String) : List String :=
  l.take i ++ [x] ++ l.drop i

/-- `lines.splice(i, 1)` -/
def listRemoveAt (l : List String) (i : Nat) : List String :=
  l.take i ++ l.drop (i + 1)

/-- `processCommand` (lines 293–341). -/
def processCommand (s : VimState) (cmd : String) : VimOut :=
  let trimmed := strTrim cmd
  if trimmed = "q" ∨ trimmed = "quit" then
    if s.modified then
      .cont { s with
              mode := .normal,
              commandBuffer := "",
              lastMessage :=
                some "E37: No write since last change (add ! to override)" }
        false
    else
      .exitApp false none
  else if trimmed = "q!" ∨ trimmed = "quit!" then
    .exitApp false none
  else if trimmed = "w" ∨ trimmed = "write" then
    .cont { s with
            modified := false,
            mode := .normal,
            commandBuffer := "",
            lastMessage := some "\"[No Name]\" written" }
      true
  else if trimmed = "wq" ∨ trimmed = "wq!" ∨ trimmed = "x" ∨ trimmed = "x!" then
    .exitApp true (some "\"[No Name]\" written")
  else if trimmed = "help" then
    .exitApp false (some "Hint: :q or :wq to quit. You got this!")
  else
    .cont { s with
            mode := .normal,
            commandBuffer := "",
            lastMessage := some ("E492: Not an editor command: " ++ trimmed) }
      false

/-- `handleArrowKey` (lines 503–522): movement clamped to buffer bounds.
`Math.max(0, …)` is `Nat` subtraction; the `l` clamp depends on mode. -/
def handleArrowKey (s : VimState) (key : String) : VimState :=
  if key = "h" ∨ key = "ArrowLeft" then
    { s with cursorCol := s.cursorCol - 1, lastMessage := none }
  else if key = "j" ∨ key = "ArrowDown" then
    if s.cursorRow < s.lines.length - 1 then
      let row := s.cursorRow + 1
      { s with
        cursorRow := row,
        cursorCol := min s.cursorCol (strLen (s.lines.getD row "")),
        lastMessage := none }
    else
      { s with lastMessage := none }
  else if key = "k" ∨ key = "ArrowUp" then
    if s.cursorRow > 0 then
      let row := s.cursorRow - 1
      { s with
        cursorRow := row,
        cursorCol := min s.cursorCol (strLen (s.lines.getD row "")),
        lastMessage := none }
    else
      { s with lastMessage := none }
  else if key = "l" ∨ key = "ArrowRight" then
    let lineLen := strLen (s.lines.getD s.cursorRow "")
    { s with
      cursorCol :=
        min (s.cursorCol + 1)
          (if s.mode = .insert then lineLen else lineLen - 1),
      lastMessage := none }
  else
    { s with lastMessage := none }

/-- The vim `handleKey` closure (lines 344–500), for a keydown event. -/
def vimHandleKey (s : VimState) (key : String) : VimOut :=
  match s.mode with
  | .command =>
    if key = "Escape" then
      .cont { s with
              mode := .normal,
              commandBuffer := "",
              lastMessage := none }
        false
    else if key = "Enter" then
      processCommand s s.commandBuffer
    else if key = "Backspace" then
      if strLen s.commandBuffer > 0 then
        .cont { s with
                commandBuffer := strDropLast s.commandBuffer,
                lastMessage := none }
          false
      else
        .cont { s with mode := .normal, lastMessage := none } false
    else if strLen key = 1 then
      .cont { s with
              commandBuffer := s.commandBuffer ++ key,
              lastMessage := none }
        false
    else
      .cont s false
  | .insert =>
    if key = "Escape" then
      .cont { s with
              mode := .normal,
              cursorCol := if s.cursorCol > 0 then s.cursorCol - 1 else s.cursorCol,
              lastMessage := none }
        false
    else if key = "Enter" then
      let currentLine := s.lines.getD s.cursorRow ""
      let beforeCursor := strTake currentLine s.cursorCol
      let afterCursor := strDrop currentLine s.cursorCol
      let lines1 := s.lines.set s.cursorRow beforeCursor
      let lines2 := listInsertAt lines1 (s.cursorRow + 1) afterCursor
      .cont { s with
              lines := lines2,
              cursorRow := s.cursorRow + 1,
              cursorCol := 0,
              modified := true,
              lastMessage := none }
        false
    else if key = "Backspace" then
      if s.cursorCol > 0 then
        let currentLine := s.lines.getD s.cursorRow ""
        let newLine :=
          strTake currentLine (s.cursorCol - 1) ++ strDrop currentLine s.cursorCol
        .cont { s with
                lines := s.lines.set s.cursorRow newLine,
                cursorCol := s.cursorCol - 1,
                modified := true,
                lastMessage := none }
          false
      else if s.cursorRow > 0 then
        let currentLine := s.lines.getD s.cursorRow ""
        let prevLine := s.lines.getD (s.cursorRow - 1) ""
        let lines1 := s.lines.set (s.cursorRow - 1) (prevLine ++ currentLine)
        let lines2 := listRemoveAt lines1 s.cursorRow
        .cont { s with
                lines := lines2,
                cursorRow := s.cursorRow - 1,
                cursorCol := strLen prevLine,
                modified := true,
                lastMessage := none }
          false
      else
        .cont { s with lastMessage := none } false
    else if key = "ArrowUp" ∨ key = "ArrowDown" ∨ key = "ArrowLeft" ∨
        key = "ArrowRight" then
      .cont (handleArrowKey s key) false
    else if strLen key = 1 then
      let currentLine := s.lines.getD s.cursorRow ""
      let newLine :=
        strTake currentLine s.cursorCol ++ key ++ strDrop currentLine s.cursorCol
      .cont { s with
              lines := s.lines.set s.cursorRow newLine,
              cursorCol := s.cursorCol + 1,
              modified := true,
              lastMessage := none }
        false
    else
      .cont s false
  | .normal =>
    if key = ":" then
      .cont { s with
              mode := .command,
              commandBuffer := "",
              lastMessage := none }
        false
    else if key = "i" then
      .cont { s with mode := .insert, lastMessage := none } false
    else if key = "a" then
      .cont { s with
              mode := .insert,
              cursorCol := min (s.cursorCol + 1) (strLen (s.lines.getD s.cursorRow "")),
              lastMessage := none }
        false
    else if key = "o" then
      .cont { s with
              lines := listInsertAt s.lines (s.cursorRow + 1) "",
              cursorRow := s.cursorRow + 1,
              cursorCol := 0,
              mode := .insert,
              modified := true,
              lastMessage := none }
        false
    else if key = "O" then
      .cont { s with
              lines := listInsertAt s.lines s.cursorRow "",
              cursorCol := 0,
              mode := .insert,
              modified := true,
              lastMessage := none }
        false
    else if key = "h" ∨ key = "ArrowLeft" ∨ key = "j" ∨ key = "ArrowDown" ∨
        key = "k" ∨ key = "ArrowUp" ∨ key = "l" ∨ key = "ArrowRight" then
      .cont (handleArrowKey s key) false
    else if key = "x" then
      let currentLine := s.lines.getD s.cursorRow ""
      if strLen currentLine > 0 ∧ s.cursorCol < strLen currentLine then
        let newLine :=
          strTake currentLine s.cursorCol ++ strDrop currentLine (s.cursorCol + 1)
        let lines1 := s.lines.set s.cursorRow newLine
        let col :=
          if s.cursorCol ≥ strLen newLine ∧ s.cursorCol > 0 then
            s.cursorCol - 1
          else
            s.cursorCol
        .cont { s with
                lines := lines1,
                cursorCol := col,
                modified := true,
                lastMessage := none }
          false
      else
        .cont s false
    else if key = "d" then
      if s.lines.length > 1 then
        let lines1 := listRemoveAt s.lines s.cursorRow
        let row :=
          if s.cursorRow ≥ lines1.length then lines1.length - 1 else s.cursorRow
        .cont { s with
                lines := lines1,
                cursorRow := row,
                cursorCol := 0,
                modified := true,
                lastMessage := none }
          false
      else
        .cont s false
    else
      .cont s false

/-- A vim session together with the process-wide `vimSavedBuffer`.
`active = none` means the sub-application has exited (the key handler
is cleared, so further keys are ignored by it). -/
structure VimSession where
  active : Option VimState
  saved : List String
  deriving Repr, DecidableEq

def startVim (saved : List String) : VimSession :=
  { active := some (enterVim saved), saved := saved }

def vimSessionKey (sess : VimSession) (key : String) : VimSession :=
  match sess.active with
  | none => sess
  | some s =>
    match vimHandleKey s key with
    | .cont s1 persist =>
      { active := some s1, saved := if persist then s1.lines else sess.saved }
    | .exitApp save _ =>
      { active := none, saved := if save then s.lines else sess.saved }

def vimSessionKeys (sess : VimSession) (keys : List String) : VimSession :=
  keys.foldl vimSessionKey sess

/-! ## Fixtures used by individual claims -/

/-- A character that closes no quote and separates no token. -/
def plainChar (c : Char) : Prop :=
  c ≠ ' ' ∧ c ≠ '\t' ∧ c ≠ '"' ∧ c ≠ '\''

instance (c : Char) : Decidable (plainChar c) := by
  unfold plainChar
  infer_instance

/-- Join token character lists with single copies of the separator
character `sep` (instantiated at the two separators of the tokenizer,
space and tab). -/
def charJoin (sep : Char) : List (List Char) → List Char
  | [] => []
  | [t] => t
  | t :: t2 :: ts => t ++ sep :: charJoin sep (t2 :: ts)

def joinComma (xs : List String) : String :=
  String.mk (List.intercalate [','] (xs.map String.data))

/-- A test handler that echoes the `args` it was invoked with and then
throws with message `"boom"`: its output trace reveals the exact
context the dispatcher passed. -/
def echoArgsHandler : CommandHandler :=
  fun ctx => ([.writeln (joinComma ctx.args)], some "boom")

/-- Normal-mode vim state reached from `["abc", "ab"]`, row 0, column 2
by pressing `j`: the vertical clamp leaves the cursor at column 2 =
length of `"ab"`, one past the last character. -/
def c9State : VimState :=
  { mode := .normal, commandBuffer := "", lines := ["abc", "ab"],
    cursorRow := 1, cursorCol := 2, modified := false, lastMessage := none }

/-! # Claims -/

/-- C1 (counterexample): with registered commands
`{"help", "history", "hello"}` and typed sole-token input `"he"`, the
matching candidates are `["hello", "help"]`, whose longest common
prefix `"hel"` extends beyond the typed `"he"` — so `handleTab` takes
the extension path, appending `"l"` and changing the typed line to
`"hel"`.  This contradicts the claim that completion "does not
auto-extend the typed line" and takes the multi-column listing path. -/
theorem C1_completion_counterexample :
    handleTab ["help", "history", "hello"] "he" = (.autoExtend "l", "hel") ∧
    (handleTab ["help", "history", "hello"] "he").2 ≠ "he" ∧
    (getTabCompletions ["help", "history", "hello"] "he").completions =
      ["hello", "help"] := by
  decide

/-- C1 (amended): for the registered command set
`{"help", "history", "hello"}` and the typed sole-token input `"he"`,
tab completion computes exactly the candidate list `["hello", "help"]`
sorted lexicographically, their longest common prefix is `"hel"`, and
since it extends beyond the typed prefix, `handleTab` auto-extends the
line to `"hel"` (the longest-common-prefix extension path is taken,
not the multi-column listing path). -/
theorem C1_completion_extends :
    getTabCompletions ["help", "history", "hello"] "he" =
      { completions := ["hello", "help"], typed := "he", isCommand := true } ∧
    findCommonStart ["hello", "help"] = "hel" ∧
    handleTab ["help", "history", "hello"] "he" = (.autoExtend "l", "hel") := by
  decide

/-- C3: under ceiling 50, for a fresh identity all of the first 50
checks in one window are allowed, the 50th returning `remaining = 0`;
the 51st check in the same window is refused; and at window expiry
(the expiry was set to `0 + RATE_LIMIT_WINDOW` by the first check, and
a key is live only strictly before its expiry) the next check is
allowed again with `remaining = 49`.  Stated twice: once with all 50
calls at time 0 and the 51st also at time 0, and once with the calls
spread over distinct times `0, 1, …, 49` inside the window — there
the result of call `i` is exactly `{allowed := true, remaining :=
49 − i}` — with the 51st at time `RATE_LIMIT_WINDOW − 1`, the last
instant of the window. -/
theorem C3_rate_limit_boundary :
    ((iterChecks 50 0 none).1.map RLResult.allowed = List.replicate 50 true) ∧
    ((iterChecks 50 0 none).1.getLast? =
      some { allowed := true, remaining := 0 }) ∧
    ((checkRateLimit 0 (iterChecks 50 0 none).2).1 =
      { allowed := false, remaining := 0 }) ∧
    ((checkRateLimit RATE_LIMIT_WINDOW
        (checkRateLimit 0 (iterChecks 50 0 none).2).2).1 =
      { allowed := true, remaining := 49 }) ∧
    ((iterChecksAt (List.range 50) none).1 =
      (List.range 50).map fun i => { allowed := true, remaining := 49 - i }) ∧
    ((checkRateLimit (RATE_LIMIT_WINDOW - 1)
        (iterChecksAt (List.range 50) none).2).1 =
      { allowed := false, remaining := 0 }) ∧
    ((checkRateLimit RATE_LIMIT_WINDOW
        (checkRateLimit (RATE_LIMIT_WINDOW - 1)
          (iterChecksAt (List.range 50) none).2).2).1 =
      { allowed := true, remaining := 49 }) := by
  decide

/-- C5: in the vim sub-application starting from the saved buffer
`[""]`: after `i`, typing `x`, `Escape`, the command `:q` is refused
because the buffer is dirty (the session stays active, showing the E37
message, with the typed `"x"` still in the buffer); `:q!` then exits
without saving; the process-wide saved buffer still holds `[""]`, and
re-entering shows that buffer, not the discarded `"x"`. -/
theorem C5_vim_quit_guard :
    (vimSessionKeys (startVim [""]) ["i", "x", "Escape", ":", "q", "Enter"] =
      { active := some
          { mode := .normal, commandBuffer := "", lines := ["x"],
            cursorRow := 0, cursorCol := 0, modified := true,
            lastMessage :=
              some "E37: No write since last change (add ! to override)" },
        saved := [""] }) ∧
    (vimSessionKeys (startVim [""])
        ["i", "x", "Escape", ":", "q", "Enter", ":", "q", "!", "Enter"] =
      { active := none, saved := [""] }) ∧
    ((enterVim
        (vimSessionKeys (startVim [""])
          ["i", "x", "Escape", ":", "q", "Enter", ":", "q", "!", "Enter"]).saved).lines
      = [""]) := by
  decide

/-- C7: from a line editor with history `["a", "b", "c"]` (oldest
first), not browsing, and uncommitted input `"d"`, pressing Arrow-Up
three times and then Arrow-Down three times restores the full state:
current line `"d"`, history unchanged, index −1, saved slot empty. -/
theorem C7_history_round_trip :
    navigateHistoryDown (navigateHistoryDown (navigateHistoryDown
      (navigateHistoryUp (navigateHistoryUp (navigateHistoryUp
        ⟨["a", "b", "c"], -1, "", "d"⟩))))) =
    ({ commandHistory := ["a", "b", "c"], historyIndex := -1,
       savedCurrentLine := "", currentLine := "d" } : LineEd) := by
  decide

/-- C10: a refused rate-limit check is pure: whenever the stored live
count has reached the ceiling, the check returns not-allowed with
`remaining = 0` and returns the store entry unchanged — no increment,
no new expiry. -/
theorem C10_refused_check_frame (now : Nat) (e : Option RLEntry)
    (h : RATE_LIMIT_MAX ≤ kvGet e now) :
    checkRateLimit now e = ({ allowed := false, remaining := 0 }, e) := by
  unfold checkRateLimit
  simp [h]

/-- C10 (witness): a concrete saturated entry — count 50, expiring at
time 100, checked at time 0 — is refused and left untouched. -/
theorem C10_refused_check_frame_witness :
    checkRateLimit 0 (some ⟨50, some 100⟩) =
      ({ allowed := false, remaining := 0 }, some ⟨50, some 100⟩) :=
  C10_refused_check_frame 0 (some ⟨50, some 100⟩) (by decide)

/-- C2 (counterexample): a 2xx response with no readable stream body is
a failed send (the terminal shows "The stream is broken..."), yet the
conversation history gains one new entry — the user message, pushed
right after the `response.ok` check and before the body is read —
contradicting the claim that every failed send leaves zero new
entries. -/
theorem C2_failure_counterexample :
    sendToPrometheus "hi" (.success { status := 200, body := none }) [] =
      ([⟨"user", "hi"⟩], ["The stream is broken..."]) ∧
    (sendToPrometheus "hi" (.success { status := 200, body := none }) []).1.length
      ≠ 0 := by
  decide

/-- C9 (counterexample): `c9State` is reachable in normal mode by
pressing `j` from `["abc", "ab"]` at row 0, column 2 (vertical
movement clamps the column to the destination row's length, here 2);
its current line `"ab"` is non-empty, yet pressing `x` changes
nothing — no character is deleted — because the guard also requires
`cursorCol < currentLine.length`.  This contradicts the claim that
`x` deletes the character under the cursor in every state whose
current line is non-empty. -/
theorem C9_x_counterexample :
    handleArrowKey
      { mode := .normal, commandBuffer := "", lines := ["abc", "ab"],
        cursorRow := 0, cursorCol := 2, modified := false,
        lastMessage := none } "j" = c9State ∧
    strLen (c9State.lines.getD c9State.cursorRow "") ≠ 0 ∧
    vimHandleKey c9State "x" = .cont c9State false := by
  decide

/-- C6: capture is exclusive and replacement is total.  After
`setKeyHandler hNew` the state holds exactly the new handler; no key
event is ever routed to a different (old) handler; while any handler
is captured no key event reaches the line-editing logic; and after
`clearKeyHandler` a keydown event (with boot complete and no command
running) reaches the line editor again. -/
theorem C6_capture_invariant (s : AdapterState) (hOld hNew : Nat)
    (ev : KeyEvent) (hne : hOld ≠ hNew) :
    (setKeyHandler s hNew).gameKeyHandler = some hNew ∧
    routeKeyEvent (setKeyHandler s hNew) ev ≠ .toCaptured hOld ∧
    (s.gameKeyHandler ≠ none → routeKeyEvent s ev ≠ .toLineEditor) ∧
    (ev.phase = .down → s.bootComplete = true → s.isCommandRunning = false →
      routeKeyEvent (clearKeyHandler s) ev = .toLineEditor) := by
  obtain ⟨gk, bc, icr⟩ := s
  refine ⟨rfl, ?_, ?_, ?_⟩
  · unfold routeKeyEvent setKeyHandler
    simp only
    split
    · simp
    · simp [Ne.symm hne]
  · intro hsome
    cases gk with
    | none => exact absurd rfl hsome
    | some h =>
      unfold routeKeyEvent
      simp only
      split <;> simp
  · intro hdown hboot hrun
    unfold routeKeyEvent clearKeyHandler
    simp [hdown]
    exact ⟨hboot, hrun⟩

/-- C6 (witness): with handler 0 captured, capturing handler 1 means a
plain keydown is not delivered to handler 0; and after release the
same keydown reaches the line editor. -/
theorem C6_capture_invariant_witness :
    routeKeyEvent (setKeyHandler ⟨some 0, true, false⟩ 1)
      ⟨"a", .down, false⟩ ≠ .toCaptured 0 ∧
    routeKeyEvent ⟨some 1, true, false⟩ ⟨"a", .down, false⟩ ≠ .toLineEditor ∧
    routeKeyEvent (clearKeyHandler ⟨some 1, true, false⟩)
      ⟨"a", .down, false⟩ = .toLineEditor :=
  ⟨(C6_capture_invariant ⟨some 0, true, false⟩ 0 1 ⟨"a", .down, false⟩
      (by decide)).2.1,
   (C6_capture_invariant ⟨some 1, true, false⟩ 0 1 ⟨"a", .down, false⟩
      (by decide)).2.2.1 (by decide),
   (C6_capture_invariant ⟨some 1, true, false⟩ 0 1 ⟨"a", .down, false⟩
      (by decide)).2.2.2 rfl rfl rfl⟩

/-- C2 (amended): history discipline of `sendToPrometheus`.  A fetch
exception or a non-2xx response leaves the conversation history
unmodified; but on a 2xx response the user message is appended
immediately after the status check and before the stream is read, so a
2xx response with no readable body (a failed send) leaves exactly one
new entry — the user message — and a successful streamed send leaves
exactly two new entries, user then assistant. -/
theorem C2_history_discipline (message : String) (history : List ChatMsg) :
    ((sendToPrometheus message .failure history).1 = history) ∧
    (∀ st body, responseOk { status := st, body := body } = false →
      (sendToPrometheus message (.success { status := st, body := body })
        history).1 = history) ∧
    (∀ st, responseOk { status := st, body := none } = true →
      (sendToPrometheus message (.success { status := st, body := none })
        history).1 = history ++ [⟨"user", message⟩]) ∧
    (∀ st chunks, responseOk { status := st, body := some chunks } = true →
      (sendToPrometheus message (.success { status := st, body := some chunks })
        history).1 =
        history ++ [⟨"user", message⟩, ⟨"assistant", String.join chunks⟩]) := by
  refine ⟨rfl, ?_, ?_, ?_⟩
  · intro st body h
    unfold sendToPrometheus
    simp only [h, Bool.false_eq_true, not_false_eq_true, if_true]
    split
    · rfl
    · split <;> rfl
  · intro st h
    unfold sendToPrometheus
    simp [h]
  · intro st chunks h
    unfold sendToPrometheus
    simp [h]

/-- C2 (witness of the amended theorem): concrete instances — a fetch
exception, a 429 response, a bodyless 200 response, and a 200 response
streaming `"ok"`, each starting from the empty history. -/
theorem C2_history_discipline_witness :
    ((sendToPrometheus "hi" .failure []).1 = []) ∧
    ((sendToPrometheus "hi" (.success { status := 429, body := none }) []).1
      = []) ∧
    ((sendToPrometheus "hi" (.success { status := 200, body := none }) []).1
      = [⟨"user", "hi"⟩]) ∧
    ((sendToPrometheus "hi" (.success { status := 200, body := some ["ok"] })
        []).1 = [⟨"user", "hi"⟩, ⟨"assistant", String.join ["ok"]⟩]) :=
  ⟨(C2_history_discipline "hi" []).1,
   (C2_history_discipline "hi" []).2.1 429 none (by decide),
   (C2_history_discipline "hi" []).2.2.1 200 (by decide),
   (C2_history_discipline "hi" []).2.2.2 200 ["ok"] (by decide)⟩

/-- C4 (counterexample): on input `"boom a b"` with `"boom"` registered
to a handler that echoes its context's `args` and then throws, the
dispatcher's trace shows the handler received `["boom", "a", "b"]` —
the full token list, command name included — not the remaining tokens
`["a", "b"]` (their echo would have been `"a,b"`).  The error is still
caught and the prompt re-emitted. -/
theorem C4_context_counterexample :
    runCommand [("boom", echoArgsHandler)] (fun _ => []) "boom a b" =
      [.writeln "boom,a,b", .writeln "Error: boom", .write "$ "] ∧
    joinComma ["a", "b"] ≠ "boom,a,b" := by
  constructor
  · rfl
  · decide

/-- C4 (amended): for every input line whose first token resolves (after
trimming, tokenizing and lowercasing) to a registered handler, if that
handler throws after producing output `outs`, then `runCommand`
returns normally with the trace `outs`, followed by the one-line error
message, followed by the re-emitted prompt; and the handler is invoked
with a context carrying the trimmed raw command and the full token
list (whose first element is the command name itself), plus the output
sink. -/
theorem C4_handler_error_caught (reg : List (String × CommandHandler))
    (fb : String → List Out) (command : String) (arg0 : String)
    (rest : List String) (h : CommandHandler) (outs : List Out) (msg : String)
    (htrim : strTrim command ≠ "")
    (hargs : parseArgs (strTrim command) = arg0 :: rest)
    (hlook : lookupCommand reg (strToLower arg0) = some h)
    (hrun : h { command := strTrim command, args := arg0 :: rest } =
      (outs, some msg)) :
    runCommand reg fb command =
      outs ++ [.writeln ("Error: " ++ msg), .write getPrompt] := by
  unfold runCommand
  rw [if_neg htrim]
  simp only [hargs, hlook, hrun]

/-- C4 (witness): the concrete input `"boom a b"` with the echoing,
throwing handler registered under `"boom"`. -/
theorem C4_handler_error_caught_witness :
    runCommand [("boom", echoArgsHandler)] (fun _ => []) "boom a b" =
      [.writeln "boom,a,b"] ++ [.writeln ("Error: " ++ "boom"), .write getPrompt] :=
  C4_handler_error_caught [("boom", echoArgsHandler)] (fun _ => [])
    "boom a b" "boom" ["a", "b"] echoArgsHandler [.writeln "boom,a,b"] "boom"
    (by decide) (by decide) rfl rfl

theorem strMk_append (a b : List Char) :
    String.mk a ++ String.mk b = String.mk (a ++ b) := rfl

/-- Deleting the character at position `col < length` shortens the line
by exactly one character. -/
theorem strLen_delete (line : String) (col : Nat)
    (hcol : col < strLen line) :
    strLen (strTake line col ++ strDrop line (col + 1)) = strLen line - 1 := by
  unfold strLen strTake strDrop at *
  rw [strMk_append]
  simp only [List.length_append, List.length_take, List.length_drop]
  omega

/-- C9 (amended): in normal mode, pressing `x` deletes the character
under the cursor exactly when the cursor column is strictly inside the
current line (`cursorCol < length`), and then clamps the cursor to the
end of the shortened line (`min cursorCol (newLength − 1)`, or 0 if
the line became empty); when the cursor column is at or past the line
length — reachable by vertical movement, which clamps the column to
the destination row's length — `x` changes nothing, even on a
non-empty line. -/
theorem C9_x_delete_clamp (cb : String) (lines : List String)
    (row col : Nat) (mod : Bool) (msg : Option String)
    (hcol : col < strLen (lines.getD row "")) :
    (vimHandleKey ⟨.normal, cb, lines, row, col, mod, msg⟩ "x" =
      .cont ⟨.normal, cb,
        lines.set row (strTake (lines.getD row "") col ++
          strDrop (lines.getD row "") (col + 1)),
        row,
        (if strLen (lines.getD row "") - 1 = 0 then 0
         else min col (strLen (lines.getD row "") - 2)),
        true, none⟩ false) ∧
    (∀ col2, strLen (lines.getD row "") ≤ col2 →
      vimHandleKey ⟨.normal, cb, lines, row, col2, mod, msg⟩ "x" =
        .cont ⟨.normal, cb, lines, row, col2, mod, msg⟩ false) := by
  have hx : ∀ c : Nat,
      vimHandleKey ⟨.normal, cb, lines, row, c, mod, msg⟩ "x" =
        (if strLen (lines.getD row "") > 0 ∧ c < strLen (lines.getD row "") then
          .cont ⟨.normal, cb,
            lines.set row (strTake (lines.getD row "") c ++
              strDrop (lines.getD row "") (c + 1)),
            row,
            (if c ≥ strLen (strTake (lines.getD row "") c ++
                strDrop (lines.getD row "") (c + 1)) ∧ c > 0 then
              c - 1
             else c),
            true, none⟩ false
         else
          .cont ⟨.normal, cb, lines, row, c, mod, msg⟩ false) :=
    fun c => rfl
  constructor
  · have h0 : 0 < strLen (lines.getD row "") :=
      Nat.lt_of_le_of_lt (Nat.zero_le col) hcol
    rw [hx col, if_pos ⟨h0, hcol⟩]
    have hnew := strLen_delete (lines.getD row "") col hcol
    simp only [VimOut.cont.injEq, VimState.mk.injEq, hnew, and_true, true_and]
    split_ifs <;> omega
  · intro col2 hcol2
    rw [hx col2, if_neg (by omega)]

/-- C9 (witness of the amended theorem): on the single line `"abc"`
with the cursor on the last character (column 2), `x` deletes `'c'`
and clamps the cursor to column 1; at column 3 (= line length) `x`
does nothing. -/
theorem C9_x_delete_clamp_witness :
    (vimHandleKey ⟨.normal, "", ["abc"], 0, 2, false, none⟩ "x" =
      .cont ⟨.normal, "", ["ab"], 0, 1, true, none⟩ false) ∧
    (vimHandleKey ⟨.normal, "", ["abc"], 0, 3, false, none⟩ "x" =
      .cont ⟨.normal, "", ["abc"], 0, 3, false, none⟩ false) :=
  ⟨((C9_x_delete_clamp "" ["abc"] 0 2 false none (by decide)).1).trans
      (by decide),
   (C9_x_delete_clamp "" ["abc"] 0 2 false none (by decide)).2 3 (by decide)⟩

/-- Whitespace characters leave the parser state unchanged while
`current` is empty. -/
theorem foldl_parseStep_ws : ∀ (l : List Char) (args : List (List Char))
    (q : Char), (∀ c ∈ l, c = ' ' ∨ c = '\t') →
    l.foldl parseStep ⟨args, [], false, q⟩ = ⟨args, [], false, q⟩
  | [], _, _, _ => rfl
  | c :: cs, args, q, h => by
    have hc := h c (by simp)
    have hstep : parseStep ⟨args, [], false, q⟩ c = ⟨args, [], false, q⟩ := by
      rcases hc with rfl | rfl <;> rfl
    rw [List.foldl_cons, hstep,
      foldl_parseStep_ws cs args q (fun x hx => h x (by simp [hx]))]

/-- Inside a quoted region, every character other than the opening
quote character — whitespace and the other quote character included —
is appended verbatim to `current`. -/
theorem foldl_parseStep_inQuote : ∀ (l : List Char) (args : List (List Char))
    (cur : List Char) (q : Char), q ∉ l →
    l.foldl parseStep ⟨args, cur, true, q⟩ = ⟨args, cur ++ l, true, q⟩
  | [], _, _, _, _ => by simp
  | c :: cs, args, cur, q, h => by
    have hcq : ¬(c = q) := fun hh => h (hh ▸ List.mem_cons_self c cs)
    have hstep : parseStep ⟨args, cur, true, q⟩ c = ⟨args, cur ++ [c], true, q⟩ := by
      simp [parseStep, hcq]
    rw [List.foldl_cons, hstep,
      foldl_parseStep_inQuote cs args (cur ++ [c]) q
        (fun hm => h (List.mem_cons_of_mem c hm))]
    simp

/-- Outside quotes, a run of plain characters (no whitespace, no
quotes) is appended verbatim to `current`. -/
theorem foldl_parseStep_plain : ∀ (l : List Char) (args : List (List Char))
    (cur : List Char) (q : Char), (∀ c ∈ l, plainChar c) →
    l.foldl parseStep ⟨args, cur, false, q⟩ = ⟨args, cur ++ l, false, q⟩
  | [], _, _, _, _ => by simp
  | c :: cs, args, cur, q, h => by
    obtain ⟨h1, h2, h3, h4⟩ := h c (by simp)
    have hstep : parseStep ⟨args, cur, false, q⟩ c = ⟨args, cur ++ [c], false, q⟩ := by
      simp [parseStep, h1, h2, h3, h4]
    rw [List.foldl_cons, hstep,
      foldl_parseStep_plain cs args (cur ++ [c]) q
        (fun x hx => h x (by simp [hx]))]
    simp

/-- Plain nonempty tokens joined by single separators — space or tab —
tokenize to exactly those tokens, appended to whatever was already
accumulated: both separator characters flush a pending token. -/
theorem parseFinish_charJoin : ∀ (sep : Char) (xs : List (List Char))
    (args : List (List Char)) (q : Char), (sep = ' ' ∨ sep = '\t') →
    (∀ t ∈ xs, t ≠ [] ∧ ∀ c ∈ t, plainChar c) →
    parseFinish ((charJoin sep xs).foldl parseStep ⟨args, [], false, q⟩) =
      args ++ xs
  | _, [], args, _, _, _ => by simp [charJoin, parseFinish]
  | sep, [t], args, q, _, h => by
    obtain ⟨hne, hpl⟩ := h t (by simp)
    rw [show charJoin sep [t] = t from rfl,
      foldl_parseStep_plain t args [] q hpl]
    have hlen : 0 < t.length := List.length_pos.mpr hne
    simp [parseFinish, hlen]
  | sep, t :: t2 :: ts, args, q, hsep, h => by
    obtain ⟨hne, hpl⟩ := h t (by simp)
    rw [show charJoin sep (t :: t2 :: ts) =
        t ++ sep :: charJoin sep (t2 :: ts) from rfl,
      List.foldl_append, foldl_parseStep_plain t args [] q hpl,
      List.foldl_cons]
    have hlen : 0 < ([] ++ t : List Char).length := by
      simpa using List.length_pos.mpr hne
    have hstep : parseStep ⟨args, [] ++ t, false, q⟩ sep =
        ⟨args ++ [[] ++ t], [], false, q⟩ := by
      rcases hsep with rfl | rfl <;> simp [parseStep, hlen, hne]
    rw [hstep, parseFinish_charJoin sep (t2 :: ts) (args ++ [[] ++ t]) q hsep
      (fun x hx => h x (List.mem_cons_of_mem t hx))]
    simp

/-- C8: the tokenizer splits on spaces and tabs outside quotes and
produces zero tokens for an empty or whitespace-only line (first
conjunct); a quote character opens a region closed only by the
matching quote character, the quote characters are stripped from the
output, quotes do not nest (the region may contain the other quote
character, whitespace included, verbatim), and an unterminated quoted
region is silently consumed to end-of-line, tokenizing exactly as if
the closing quote were present (second conjunct); plain tokens
separated by either separator character — space or tab — are returned
as-is, so a tab flushes a pending token exactly as a space does
(third conjunct). -/
theorem C8_tokenizer_contract :
    (∀ l : List Char, (∀ c ∈ l, c = ' ' ∨ c = '\t') →
      parseArgs (String.mk l) = []) ∧
    (∀ (q : Char) (l : List Char), (q = '"' ∨ q = '\'') → q ∉ l →
      parseArgs (String.mk (q :: (l ++ [q]))) =
        (if l = [] then [] else [String.mk l]) ∧
      parseArgs (String.mk (q :: l)) =
        parseArgs (String.mk (q :: (l ++ [q])))) ∧
    (∀ (sep : Char) (xs : List (List Char)), (sep = ' ' ∨ sep = '\t') →
      (∀ t ∈ xs, t ≠ [] ∧ ∀ c ∈ t, plainChar c) →
      parseArgs (String.mk (charJoin sep xs)) = xs.map fun l => String.mk l) := by
  refine ⟨?_, ?_, ?_⟩
  · intro l h
    unfold parseArgs
    rw [show (String.mk l).data = l from rfl,
      show parseInit = (⟨[], [], false, ' '⟩ : ParseSt) from rfl,
      foldl_parseStep_ws l [] ' ' h]
    rfl
  · intro q l hq hql
    have hstep1 : parseStep parseInit q = ⟨[], [], true, q⟩ := by
      rcases hq with rfl | rfl <;> rfl
    have hrun : (q :: (l ++ [q])).foldl parseStep parseInit =
        ⟨[], l, false, q⟩ := by
      rw [List.foldl_cons, hstep1, List.foldl_append,
        foldl_parseStep_inQuote l [] [] q hql]
      simp only [List.nil_append, List.foldl_cons, List.foldl_nil]
      simp [parseStep]
    constructor
    · unfold parseArgs
      rw [show (String.mk (q :: (l ++ [q]))).data = q :: (l ++ [q]) from rfl,
        hrun]
      cases l with
      | nil => rfl
      | cons x xs => simp [parseFinish]
    · unfold parseArgs
      rw [show (String.mk (q :: l)).data = q :: l from rfl,
        show (String.mk (q :: (l ++ [q]))).data = q :: (l ++ [q]) from rfl,
        hrun, List.foldl_cons, hstep1,
        foldl_parseStep_inQuote l [] [] q hql]
      rfl
  · intro sep xs hsep h
    unfold parseArgs
    rw [show (String.mk (charJoin sep xs)).data = charJoin sep xs from rfl,
      show parseInit = (⟨[], [], false, ' '⟩ : ParseSt) from rfl,
      parseFinish_charJoin sep xs [] ' ' hsep h]
    simp

/-- C8 (witness): concrete instances of all three conjuncts — a
whitespace-only line, a single-quoted region containing a space
(closed and unterminated, both yielding `["a b"]`), two plain
space-separated tokens, and the same two tokens tab-separated (the
tab flushes the pending token `"ab"`). -/
theorem C8_tokenizer_contract_witness :
    parseArgs (String.mk [' ', ' ', '\t']) = [] ∧
    parseArgs (String.mk ('\'' :: ("a b".data ++ ['\'']))) =
      [String.mk "a b".data] ∧
    parseArgs (String.mk ('\'' :: "a b".data)) =
      parseArgs (String.mk ('\'' :: ("a b".data ++ ['\'']))) ∧
    parseArgs (String.mk (charJoin ' ' ["ab".data, "cd".data])) =
      ["ab".data, "cd".data].map (fun l => String.mk l) ∧
    parseArgs (String.mk (charJoin '\t' ["ab".data, "cd".data])) =
      ["ab".data, "cd".data].map (fun l => String.mk l) := by
  obtain ⟨h1, h2, h3⟩ := C8_tokenizer_contract
  refine ⟨h1 _ (by decide), ?_, ?_, h3 ' ' _ (by decide) (by decide),
    h3 '\t' _ (by decide) (by decide)⟩
  · exact ((h2 '\'' "a b".data (by decide) (by decide)).1).trans (by decide)
  · exact (h2 '\'' "a b".data (by decide) (by decide)).2

end Site
